import Mathlib

/-!
Verification of the orion-decision scheduler
(src/services/orion-decision/src/orion_decision/scheduler.py, cli.py,
init module). The Python code is shallowly embedded: pure dictionaries
become Lean structures, timestamps become naturals, the remote queue
becomes a function deciding which task identifiers it accepts, and the
slugId generators become explicit identifier-assignment functions.
Raising an exception is modelled by an aborted result whose success flag
is false.
-/

namespace OrionDecision

/-- Filesystem paths are modelled as lists of components. -/
abbrev Path := List String

/-- A buildable unit of the catalog.
Modelled from the spec: the Service class lives in orion.py, which is not
under src/; the spec (section 3, Unit) gives its fields: unique name, a
build context path, a build file path relative to the context, declared
dependency names, and a mutable dirty flag initially false. The scheduler
code reads exactly these attributes (service.name, service.dockerfile
relative to service.context, service.service_deps, service.dirty). -/
structure Service where
  name : String
  context : Path
  buildFile : String
  service_deps : List String
  dirty : Bool
deriving DecidableEq, Repr

/-- The kind of triggering event, mirroring the three webhook actions
accepted by parse_args (github-push, github-pull-request,
github-release). -/
inductive EventKind where
  | push
  | pullRequest
  | release
deriving DecidableEq, Repr

/-- The GithubEvent object consumed by the scheduler.
Modelled from the spec: the GithubEvent class lives in git.py, which is
not under src/. The scheduler code reads branch, commit, commit_message,
clone_url, pull_request and the changed-path list. Per the spec data
model, a pull request carries a number and no branch, so branch is an
Option that is none for pull-request events, and pull_request is some
number exactly for pull-request events. The kind tag records which
webhook action produced the event. -/
structure GithubEvent where
  kind : EventKind
  branch : Option String
  commit : String
  commit_message : String
  clone_url : String
  pull_request : Option Nat
  changed_paths : List Path
deriving DecidableEq, Repr

/-- Python str() applied to an optional string: None renders as "None"
inside f-string interpolation. -/
def optStr : Option String → String
  | some s => s
  | none => "None"

/-- DEADLINE = timedelta(hours=2), in seconds. -/
def DEADLINE : Nat := 2 * 60 * 60

/-- MAX_RUN_TIME = timedelta(hours=1), in seconds. -/
def MAX_RUN_TIME : Nat := 60 * 60

/-- ARTIFACTS_EXPIRE = relativedelta(months=6); calendar months are
modelled as a fixed 30-day duration in seconds. -/
def ARTIFACTS_EXPIRE : Nat := 6 * 30 * 24 * 60 * 60

/-- PROVISIONER_ID constant from the package init module. -/
def PROVISIONER_ID : String := "proj-fuzzing"

/-- WORKER_TYPE constant from the package init module. -/
def WORKER_TYPE : String := "ci"

/-- OWNER_EMAIL constant from the package init module. -/
def OWNER_EMAIL : String := "truber@mozilla.com"

/-- SOURCE_URL constant from the package init module. -/
def SOURCE_URL : String := "https://github.com/MozillaSecurity/orion"

/-- One declared artifact of a task payload. -/
structure Artifact where
  name : String
  expires : Nat
  path : String
  fileType : String
deriving DecidableEq, Repr

/-- The payload of a queued task. The push-task payload declares no
artifacts, which is represented by an empty artifact list. -/
structure Payload where
  artifacts : List Artifact
  command : List String
  env : List (String × String)
  features : List String
  image : String
  maxRunTime : Nat
deriving DecidableEq, Repr

/-- A task definition as handed to queue.createTask. -/
structure TaskDef where
  taskGroupId : String
  dependencies : List String
  created : Nat
  deadline : Nat
  provisionerId : String
  workerType : String
  payload : Payload
  routes : List String
  scopes : List String
  name : String
  description : String
  owner : String
  source : String
deriving DecidableEq, Repr

/-- The Scheduler object state set up by Scheduler.__init__. -/
structure Scheduler where
  github_event : GithubEvent
  now : Nat
  task_group : String
  docker_secret : Option String
  push_branch : String
deriving DecidableEq, Repr

/-- Whether one unit kind or the other created a given task, mirroring
the two createTask call sites and the two counters in create_tasks. -/
inductive TaskKind where
  | build
  | push
deriving DecidableEq, Repr

/-- Bookkeeping for one accepted createTask call: the task identifier
passed to the queue, the unit it was created for, which call site
created it, and the full task definition. -/
structure Created where
  id : String
  service : String
  kind : TaskKind
  task : TaskDef
deriving DecidableEq, Repr

/-- should_push from create_tasks line 50: the event branch compared
with the configured push branch. A pull-request event has no branch, and
None compared with a string is False in Python. -/
def should_push (sched : Scheduler) : Bool :=
  sched.github_event.branch == some sched.push_branch

/-- Dirtiness lookup self.services[dep].dirty. A name absent from the
catalog reads as not dirty; the spec load-time invariant rules that case
out for well-formed catalogs. -/
def dirtyIn (svcs : List Service) (n : String) : Bool :=
  match svcs.find? (fun s => s.name == n) with
  | some s => s.dirty
  | none => false

/-- The list comprehension building dirty_dep_tasks: the pre-allocated
build-task identifier of every declared dependency that is also dirty. -/
def dirty_dep_tasks (svcs : List Service) (bids : String → String)
    (s : Service) : List String :=
  (s.service_deps.filter (dirtyIn svcs)).map bids

/-- The index route computed at the top of the loop body: keyed by the
pull-request number when the event is a pull request, otherwise by the
event branch. -/
def build_index (evt : GithubEvent) (s : Service) : String :=
  match evt.pull_request with
  | some n =>
      "index.project.fuzzing.orion." ++ s.name ++ ".pull_request." ++ toString n
  | none =>
      "index.project.fuzzing.orion." ++ s.name ++ "." ++ optStr evt.branch

/-- The build task dictionary from create_tasks lines 80 to 129. -/
def build_task (sched : Scheduler) (svcs : List Service)
    (bids : String → String) (s : Service) : TaskDef :=
  let deps := dirty_dep_tasks svcs bids s
  { taskGroupId := sched.task_group
    dependencies := deps
    created := sched.now
    deadline := sched.now + DEADLINE
    provisionerId := PROVISIONER_ID
    workerType := WORKER_TYPE
    payload :=
      { artifacts :=
          [⟨"public/" ++ s.name ++ ".tar", sched.now + ARTIFACTS_EXPIRE,
            "/image.tar", "file"⟩]
        command := ["build.sh"]
        env :=
          [("IMAGE_NAME", s.name),
           ("DOCKERFILE", s.buildFile),
           ("ARCHIVE_PATH", "/image.tar"),
           ("GIT_REPOSITORY", sched.github_event.clone_url),
           ("GIT_REVISION", sched.github_event.commit),
           ("LOAD_DEPS", if deps.isEmpty then "0" else "1")]
        features := ["privileged"]
        image := "mozillasecurity/taskboot:latest"
        maxRunTime := MAX_RUN_TIME }
    routes :=
      ["index.project.fuzzing.orion." ++ s.name ++ ".rev." ++
         sched.github_event.commit,
       build_index sched.github_event s]
    scopes :=
      ["docker-worker:capability:privileged",
       "queue:route:index.project.fuzzing.orion.*"]
    name := "Orion " ++ s.name ++ " docker build"
    description := "Build the docker image for " ++ s.name ++ " tasks"
    owner := OWNER_EMAIL
    source := SOURCE_URL }

/-- The push task dictionary from create_tasks lines 140 to 170. -/
def push_task (sched : Scheduler) (bids : String → String)
    (s : Service) : TaskDef :=
  { taskGroupId := sched.task_group
    dependencies := [bids s.name]
    created := sched.now
    deadline := sched.now + DEADLINE
    provisionerId := PROVISIONER_ID
    workerType := WORKER_TYPE
    payload :=
      { artifacts := []
        command := ["taskboot", "push-artifact"]
        env := [("TASKCLUSTER_SECRET", optStr sched.docker_secret)]
        features := ["taskclusterProxy"]
        image := "mozillasecurity/taskboot:latest"
        maxRunTime := MAX_RUN_TIME }
    routes := []
    scopes := ["secrets:get:" ++ optStr sched.docker_secret]
    name := "Orion " ++ s.name ++ " docker push"
    description := "Publish the docker image for " ++ s.name ++ " tasks"
    owner := OWNER_EMAIL
    source := SOURCE_URL }

/-- The loop of create_tasks over self.services.values(). The first
list argument svcs is the whole catalog (used for dependency lookups and
the pre-allocated identifier table service_build_tasks, modelled by
bids); the recursion walks the remaining iteration list. The queue
argument tells which task identifiers queue.createTask accepts; a
rejected identifier models a TaskclusterFailure, which the code logs and
re-raises, so the loop stops and the success flag comes back false. The
pids argument models the fresh slugId() drawn for each push task. -/
def create_tasks_go (sched : Scheduler) (svcs : List Service)
    (bids pids : String → String) (queue : String → Bool) :
    List Service → List Created × Bool
  | [] => ([], true)
  | s :: rest =>
    if s.dirty then
      let bid := bids s.name
      if queue bid then
        let bentry : Created := ⟨bid, s.name, TaskKind.build, build_task sched svcs bids s⟩
        if should_push sched then
          let pid := pids s.name
          if queue pid then
            let r := create_tasks_go sched svcs bids pids queue rest
            (bentry :: ⟨pid, s.name, TaskKind.push, push_task sched bids s⟩ :: r.1, r.2)
          else ([bentry], false)
        else
          let r := create_tasks_go sched svcs bids pids queue rest
          (bentry :: r.1, r.2)
      else ([], false)
    else create_tasks_go sched svcs bids pids queue rest

/-- Scheduler.create_tasks: iterate the catalog (the Services mapping
yields units in deterministic name-sorted order per the spec, modelled
by the order of the svcs list), submitting a build task for every dirty
unit and, when pushing, a push task right after it. Returns the accepted
createTask calls in submission order and whether the whole loop ran
without a raised TaskclusterFailure. -/
def create_tasks (sched : Scheduler) (svcs : List Service)
    (bids pids : String → String) (queue : String → Bool) :
    List Created × Bool :=
  create_tasks_go sched svcs bids pids queue svcs

/-- The pair of task entries contributed by one dirty unit when every
submission is accepted: its build task, then its push task when pushing. -/
def entry_of (sched : Scheduler) (svcs : List Service)
    (bids pids : String → String) (s : Service) : List Created :=
  ⟨bids s.name, s.name, TaskKind.build, build_task sched svcs bids s⟩ ::
    (if should_push sched then
      [⟨pids s.name, s.name, TaskKind.push, push_task sched bids s⟩]
     else [])

/-- Whether a list starts with a given needle. -/
def listStartsWith {α : Type} [BEq α] : List α → List α → Bool
  | [], _ => true
  | _ :: _, [] => false
  | a :: as, b :: bs => a == b && listStartsWith as bs

/-- Whether a list contains a given needle as a contiguous run, the
semantics of the Python substring test with the in operator. -/
def listContainsSub {α : Type} [BEq α] (needle : List α) : List α → Bool
  | [] => listStartsWith needle []
  | b :: bs => listStartsWith needle (b :: bs) || listContainsSub needle bs

/-- The test on line 42 of scheduler.py: the force-rebuild marker string
occurs in the commit message. -/
def forceRebuildRequested (msg : String) : Bool :=
  listContainsSub "/force-rebuild".toList msg.toList

/-- A unit owns a path when the path lies under its build context
(modelled from the spec, section 4.1: unitsOwningPath), that is, the
context components are a prefix of the path components. -/
def ownsPath (s : Service) (p : Path) : Bool :=
  listStartsWith s.context p

/-- Modelled from the spec: step 1 of Services.mark_changed_dirty
(orion.py, not under src/) — every unit owning a changed path is marked
dirty directly; paths outside every context affect nothing. -/
def markOwners (svcs : List Service) (changed : List Path) : List Service :=
  svcs.map (fun s => { s with dirty := s.dirty || changed.any (ownsPath s) })

/-- Modelled from the spec: one full scan of step 2 of
Services.mark_changed_dirty — a unit becomes dirty when some dirty unit
appears among its declared dependencies. -/
def passOnce (svcs : List Service) : List Service :=
  svcs.map (fun s =>
    { s with dirty := s.dirty || svcs.any (fun u => u.dirty && s.service_deps.contains u.name) })

/-- Modelled from the spec: the fixed-point loop of step 2 — rescan
until a full pass changes nothing. The fuel bound suffices because every
changing pass strictly increases the number of dirty units. -/
def propagate : Nat → List Service → List Service
  | 0, svcs => svcs
  | n + 1, svcs =>
    if passOnce svcs = svcs then svcs else propagate n (passOnce svcs)

/-- Modelled from the spec: Services.mark_changed_dirty (orion.py, not
under src/) — mark the owners of changed paths dirty, then propagate
dirtiness to dependents until a fixed point. -/
def mark_changed_dirty (svcs : List Service) (changed : List Path) : List Service :=
  propagate (svcs.length + 1) (markOwners svcs changed)

/-- Scheduler.mark_services_for_rebuild, lines 35 to 47: a commit
message holding the force-rebuild marker dirties every unit and skips
path analysis; otherwise dirtiness comes from the changed-path list. -/
def mark_services_for_rebuild (sched : Scheduler) (svcs : List Service) : List Service :=
  if forceRebuildRequested sched.github_event.commit_message then
    svcs.map (fun s => { s with dirty := true })
  else
    mark_changed_dirty svcs sched.github_event.changed_paths

/-- The parsed command-line arguments of the decision entrypoint
(parse_args in cli.py): task group, push branch, optional Docker Hub
secret, the webhook action and event, the reference time, and the
dry-run flag. The log level is omitted as it only configures logging. -/
structure Args where
  task_group : String
  push_branch : String
  docker_hub_secret : Option String
  github_action : EventKind
  github_event : GithubEvent
  now : Nat
  dry_run : Bool
deriving DecidableEq, Repr

/-- Modelled from the spec: GithubEvent.from_taskcluster (git.py, not
under src/) builds the event object from the webhook action and payload;
the action fixes which variant the event is. -/
def GithubEvent.from_taskcluster (action : EventKind) (event : GithubEvent) : GithubEvent :=
  { event with kind := action }

/-- Scheduler.main, lines 185 to 215, composed with the exit protocol of
cli.main: build the event, construct the scheduler from the parsed
arguments, mark services for rebuild, create tasks, and return exit
status 0; an exception raised during submission escapes main and the
process exits nonzero, modelled as status 1. The result pairs the
accepted createTask calls with the exit status. -/
def Scheduler.main (args : Args) (catalog : List Service)
    (bids pids : String → String) (queue : String → Bool) :
    List Created × Nat :=
  let evt := GithubEvent.from_taskcluster args.github_action args.github_event
  let sched : Scheduler :=
    { github_event := evt
      now := args.now
      task_group := args.task_group
      docker_secret := args.docker_hub_secret
      push_branch := args.push_branch }
  let svcs := mark_services_for_rebuild sched catalog
  let r := create_tasks sched svcs bids pids queue
  (r.1, if r.2 then 0 else 1)

/-- Transitive dependents inside a catalog: s is a dependent of u when
the declared dependencies of s include the name of u; the relation
closes transitively through members of the catalog. -/
inductive TransDependent (r : List Service) : Service → Service → Prop
  | direct {u s : Service} :
      u ∈ r → s ∈ r → u.name ∈ s.service_deps → TransDependent r u s
  | tail {u v s : Service} :
      TransDependent r u v → s ∈ r → v.name ∈ s.service_deps → TransDependent r u s

/-- The full submission list produced by the create_tasks loop when
every createTask call is accepted: each dirty unit contributes its
entries, in catalog iteration order. -/
def entriesAll (sched : Scheduler) (svcs : List Service)
    (bids pids : String → String) : List Service → List Created
  | [] => []
  | s :: rest =>
    (if s.dirty then entry_of sched svcs bids pids s else []) ++
      entriesAll sched svcs bids pids rest

/-- Raise the dirty flag of a unit by a computed condition; both the
direct marking step and the propagation pass have this shape. -/
def dirtyOr (h : Service → Bool) (s : Service) : Service :=
  { s with dirty := s.dirty || h s }

/-- Every unit owning one of the changed paths is dirty. -/
def OwnersDirty (changed : List Path) (l : List Service) : Prop :=
  ∀ s ∈ l, changed.any (ownsPath s) = true → s.dirty = true

-- Concrete instances used by counterexamples and witnesses.

/-- A dirty unit named a depending on unit b. -/
def svcA : Service := ⟨"a", ["services", "a"], "Dockerfile", ["b"], true⟩

/-- A dirty unit named b with no dependencies. -/
def svcB : Service := ⟨"b", ["services", "b"], "Dockerfile", [], true⟩

/-- A dirty unit named a with no dependencies. -/
def svcA0 : Service := ⟨"a", ["services", "a"], "Dockerfile", [], true⟩

/-- A dirty independent unit named d with no dependencies. -/
def svcD : Service := ⟨"d", ["services", "d"], "Dockerfile", [], true⟩

/-- A non-dirty unit named n with no dependencies. -/
def svcN : Service := ⟨"n", ["services", "n"], "Dockerfile", [], false⟩

/-- A push event on branch dev. -/
def evtPushDev : GithubEvent :=
  ⟨EventKind.push, some "dev", "rev1", "msg", "https://clone", none, []⟩

/-- A push event on branch master. -/
def evtPushMaster : GithubEvent :=
  ⟨EventKind.push, some "master", "rev1", "msg", "https://clone", none, []⟩

/-- A release event whose branch is master. -/
def evtRelMaster : GithubEvent :=
  ⟨EventKind.release, some "master", "rev1", "msg", "https://clone", none, []⟩

/-- A pull-request event numbered 7. -/
def evtPR : GithubEvent :=
  ⟨EventKind.pullRequest, none, "rev1", "msg", "https://clone", some 7, []⟩

/-- Scheduler for the dev push: not the publish branch. -/
def schedDev : Scheduler := ⟨evtPushDev, 1000, "tg", some "sec", "master"⟩

/-- Scheduler for the master push: the publish branch. -/
def schedMaster : Scheduler := ⟨evtPushMaster, 1000, "tg", some "sec", "master"⟩

/-- Scheduler for the master push with the Docker Hub secret missing. -/
def schedNoSecret : Scheduler := ⟨evtPushMaster, 1000, "tg", none, "master"⟩

/-- Scheduler for the release event on the publish branch. -/
def schedRelease : Scheduler := ⟨evtRelMaster, 1000, "tg", some "sec", "master"⟩

/-- Scheduler for the pull-request event. -/
def schedPR : Scheduler := ⟨evtPR, 1000, "tg", some "sec", "master"⟩

/-- A queue that rejects the task identifier a and accepts the rest. -/
def rejectA : String → Bool := fun i => !(i == "a")

/-- A queue that accepts every task identifier. -/
def acceptAll : String → Bool := fun _ => true

/-- A push-task identifier assignment distinct from the build ones. -/
def pushIds : String → String := fun n => "push-" ++ n

/-- A queue that rejects the push task of unit b and accepts the rest. -/
def rejectPushB : String → Bool := fun i => !(i == "push-b")

/-- Clean catalog unit A with no dependencies. -/
def svcPA : Service := ⟨"A", ["services", "A"], "Dockerfile", [], false⟩

/-- Clean catalog unit B depending on A. -/
def svcPB : Service := ⟨"B", ["services", "B"], "Dockerfile", ["A"], false⟩

/-- Clean catalog unit C depending on B. -/
def svcPC : Service := ⟨"C", ["services", "C"], "Dockerfile", ["B"], false⟩

/-- A push event whose commit message holds the force-rebuild marker. -/
def evtForce : GithubEvent :=
  ⟨EventKind.push, some "dev", "rev1", "please /force-rebuild now",
   "https://clone", none, [["services", "A", "setup.sh"]]⟩

/-- Scheduler for the force-rebuild event. -/
def schedForce : Scheduler := ⟨evtForce, 1000, "tg", some "sec", "master"⟩

/-- The force-rebuild scheduler with a different changed-path list. -/
def schedForceOther : Scheduler :=
  { schedForce with
      github_event := { schedForce.github_event with changed_paths := [["y", "z"]] } }

/-- Unit A marked dirty. -/
def svcPAd : Service := ⟨"A", ["services", "A"], "Dockerfile", [], true⟩

/-- Unit B marked dirty. -/
def svcPBd : Service := ⟨"B", ["services", "B"], "Dockerfile", ["A"], true⟩

/-- The changed-path list touching the context of unit A. -/
def changedA : List Path := [["services", "A", "setup.sh"]]

/-! ## Helper lemmas about the submission loop -/

theorem create_tasks_go_success (sched : Scheduler) (svcs : List Service)
    (bids pids : String → String) (queue : String → Bool)
    (hq : ∀ i, queue i = true) (l : List Service) :
    create_tasks_go sched svcs bids pids queue l =
      (entriesAll sched svcs bids pids l, true) := by
  induction l with
  | nil => rfl
  | cons s rest ih =>
    by_cases hs : s.dirty
    · by_cases hp : should_push sched
      · simp [create_tasks_go, entriesAll, entry_of, hs, hp, hq, ih]
      · simp [create_tasks_go, entriesAll, entry_of, hs, hp, hq, ih]
    · simp [create_tasks_go, entriesAll, hs, ih]

theorem create_tasks_success (sched : Scheduler) (svcs : List Service)
    (bids pids : String → String) (queue : String → Bool)
    (hq : ∀ i, queue i = true) :
    create_tasks sched svcs bids pids queue =
      (entriesAll sched svcs bids pids svcs, true) :=
  create_tasks_go_success sched svcs bids pids queue hq svcs

theorem create_tasks_go_append (sched : Scheduler) (svcs : List Service)
    (bids pids : String → String) (queue : String → Bool)
    (l1 l2 : List Service) :
    create_tasks_go sched svcs bids pids queue (l1 ++ l2) =
      (if (create_tasks_go sched svcs bids pids queue l1).2 then
        ((create_tasks_go sched svcs bids pids queue l1).1 ++
           (create_tasks_go sched svcs bids pids queue l2).1,
         (create_tasks_go sched svcs bids pids queue l2).2)
      else create_tasks_go sched svcs bids pids queue l1) := by
  induction l1 with
  | nil => simp [create_tasks_go]
  | cons s rest ih =>
    by_cases hs : s.dirty
    · by_cases hb : queue (bids s.name)
      · by_cases hp : should_push sched
        · by_cases hpp : queue (pids s.name)
          · by_cases h2 : (create_tasks_go sched svcs bids pids queue rest).2
            · simp [create_tasks_go, hs, hb, hp, hpp, ih, h2]
            · simp [create_tasks_go, hs, hb, hp, hpp, ih, h2]
          · simp [create_tasks_go, hs, hb, hp, hpp]
        · by_cases h2 : (create_tasks_go sched svcs bids pids queue rest).2
          · simp [create_tasks_go, hs, hb, hp, ih, h2]
          · simp [create_tasks_go, hs, hb, hp, ih, h2]
      · simp [create_tasks_go, hs, hb]
    · simp [create_tasks_go, hs, ih]

theorem build_entry_mem_entriesAll (sched : Scheduler) (svcs : List Service)
    (bids pids : String → String) (l : List Service) (s : Service)
    (hs : s ∈ l) (hd : s.dirty = true) :
    Created.mk (bids s.name) s.name TaskKind.build (build_task sched svcs bids s) ∈
      entriesAll sched svcs bids pids l := by
  induction l with
  | nil => cases hs
  | cons a rest ih =>
    rcases List.mem_cons.mp hs with h | h
    · subst h
      simp only [entriesAll, hd, if_true]
      exact List.mem_append_left _ (List.mem_cons_self _ _)
    · simp only [entriesAll]
      exact List.mem_append_right _ (ih h)

theorem push_entry_mem_entriesAll (sched : Scheduler) (svcs : List Service)
    (bids pids : String → String) (hp : should_push sched = true)
    (l : List Service) (s : Service) (hs : s ∈ l) (hd : s.dirty = true) :
    Created.mk (pids s.name) s.name TaskKind.push (push_task sched bids s) ∈
      entriesAll sched svcs bids pids l := by
  induction l with
  | nil => cases hs
  | cons a rest ih =>
    rcases List.mem_cons.mp hs with h | h
    · subst h
      simp only [entriesAll, entry_of, hd, hp, if_true]
      exact List.mem_append_left _ (by simp)
    · simp only [entriesAll]
      exact List.mem_append_right _ (ih h)

theorem entriesAll_shape (sched : Scheduler) (svcs : List Service)
    (bids pids : String → String) (l : List Service) (c : Created)
    (hc : c ∈ entriesAll sched svcs bids pids l) :
    ∃ s, s ∈ l ∧ s.dirty = true ∧
      (c = Created.mk (bids s.name) s.name TaskKind.build (build_task sched svcs bids s) ∨
       (should_push sched = true ∧
         c = Created.mk (pids s.name) s.name TaskKind.push (push_task sched bids s))) := by
  induction l with
  | nil => cases hc
  | cons a rest ih =>
    simp only [entriesAll] at hc
    rcases List.mem_append.mp hc with h | h
    · by_cases ha : a.dirty
      · rw [if_pos ha] at h
        unfold entry_of at h
        rcases List.mem_cons.mp h with h1 | h1
        · exact ⟨a, List.mem_cons_self _ _, ha, Or.inl h1⟩
        · by_cases hp : should_push sched
          · rw [if_pos hp] at h1
            exact ⟨a, List.mem_cons_self _ _, ha,
              Or.inr ⟨hp, List.mem_singleton.mp h1⟩⟩
          · rw [if_neg hp] at h1
            cases h1
      · rw [if_neg ha] at h
        cases h
    · obtain ⟨s, hs, hd, hshape⟩ := ih h
      exact ⟨s, List.mem_cons_of_mem _ hs, hd, hshape⟩

theorem countP_build_name_entriesAll (sched : Scheduler) (svcs : List Service)
    (bids pids : String → String) (n : String) (l : List Service) :
    (entriesAll sched svcs bids pids l).countP
        (fun c => c.service == n && c.kind == TaskKind.build) =
      (l.filter (fun s => s.dirty)).countP (fun t => t.name == n) := by
  induction l with
  | nil => simp [entriesAll]
  | cons s rest ih =>
    by_cases hs : s.dirty
    · by_cases hp : should_push sched
      · simp [entriesAll, entry_of, hs, hp, List.countP_append, List.countP_cons,
          ih, List.filter_cons]
      · simp [entriesAll, entry_of, hs, hp, List.countP_append, List.countP_cons,
          ih, List.filter_cons]
    · simp [entriesAll, hs, ih, List.filter_cons]

theorem countP_push_name_entriesAll (sched : Scheduler) (svcs : List Service)
    (bids pids : String → String) (n : String) (l : List Service) :
    (entriesAll sched svcs bids pids l).countP
        (fun c => c.service == n && c.kind == TaskKind.push) =
      if should_push sched then
        (l.filter (fun s => s.dirty)).countP (fun t => t.name == n)
      else 0 := by
  induction l with
  | nil => simp [entriesAll]
  | cons s rest ih =>
    by_cases hs : s.dirty
    · by_cases hp : should_push sched
      · simp [entriesAll, entry_of, hs, hp, List.countP_append, List.countP_cons,
          ih, List.filter_cons]
      · simp [entriesAll, entry_of, hs, hp, List.countP_append, List.countP_cons,
          ih, List.filter_cons]
    · simp [entriesAll, hs, ih, List.filter_cons]

theorem countP_service_entriesAll (sched : Scheduler) (svcs : List Service)
    (bids pids : String → String) (n : String) (l : List Service) :
    (entriesAll sched svcs bids pids l).countP (fun c => c.service == n) =
      ((l.filter (fun s => s.dirty)).countP (fun t => t.name == n)) *
        (if should_push sched then 2 else 1) := by
  induction l with
  | nil => simp [entriesAll]
  | cons s rest ih =>
    by_cases hs : s.dirty
    · by_cases hp : should_push sched
      · by_cases hn : s.name == n
        · simp [entriesAll, entry_of, hs, hp, hn, List.countP_append,
            List.countP_cons, ih, List.filter_cons, Nat.add_mul]
        · simp [entriesAll, entry_of, hs, hp, hn, List.countP_append,
            List.countP_cons, ih, List.filter_cons]
      · by_cases hn : s.name == n
        · simp [entriesAll, entry_of, hs, hp, hn, List.countP_append,
            List.countP_cons, ih, List.filter_cons, Nat.add_mul]
        · simp [entriesAll, entry_of, hs, hp, hn, List.countP_append,
            List.countP_cons, ih, List.filter_cons]
    · simp [entriesAll, hs, ih, List.filter_cons]

theorem find_name_nodup (l : List Service)
    (hnodup : (l.map Service.name).Nodup) (t : Service) (ht : t ∈ l) :
    l.find? (fun s => s.name == t.name) = some t := by
  induction l with
  | nil => cases ht
  | cons a rest ih =>
    rw [List.map_cons, List.nodup_cons] at hnodup
    rcases List.mem_cons.mp ht with h | h
    · subst h
      exact List.find?_cons_of_pos _ (by simp)
    · have hne : (a.name == t.name) = false := by
        have hmem : t.name ∈ rest.map Service.name := List.mem_map_of_mem _ h
        simp only [beq_eq_false_iff_ne, ne_eq]
        intro he
        exact hnodup.1 (he ▸ hmem)
      rw [List.find?_cons_of_neg _ (by simp [hne])]
      exact ih hnodup.2 h

theorem dirtyIn_eq_dirty (l : List Service)
    (hnodup : (l.map Service.name).Nodup) (t : Service) (ht : t ∈ l) :
    dirtyIn l t.name = t.dirty := by
  unfold dirtyIn
  rw [find_name_nodup l hnodup t ht]

theorem name_inj (l : List Service) (hnodup : (l.map Service.name).Nodup)
    {s t : Service} (hs : s ∈ l) (ht : t ∈ l) (h : s.name = t.name) : s = t := by
  induction l with
  | nil => cases hs
  | cons a rest ih =>
    rw [List.map_cons, List.nodup_cons] at hnodup
    rcases List.mem_cons.mp hs with h1 | h1 <;> rcases List.mem_cons.mp ht with h2 | h2
    · rw [h1, h2]
    · exfalso
      apply hnodup.1
      rw [h1] at h
      exact h ▸ List.mem_map_of_mem _ h2
    · exfalso
      apply hnodup.1
      rw [h2] at h
      exact h ▸ List.mem_map_of_mem _ h1
    · exact ih hnodup.2 h1 h2

theorem countP_name_filter_dirty_eq_one (l : List Service)
    (hnodup : (l.map Service.name).Nodup) (s : Service)
    (hs : s ∈ l) (hd : s.dirty = true) :
    (l.filter (fun u => u.dirty)).countP (fun u => u.name == s.name) = 1 := by
  induction l with
  | nil => cases hs
  | cons a rest ih =>
    rw [List.map_cons, List.nodup_cons] at hnodup
    rcases List.mem_cons.mp hs with h | h
    · subst h
      rw [List.filter_cons_of_pos hd, List.countP_cons]
      have hz : (rest.filter (fun u => u.dirty)).countP (fun u => u.name == s.name) = 0 := by
        rw [List.countP_eq_zero]
        intro u hu
        have hmem : u ∈ rest := List.mem_of_mem_filter hu
        intro he
        have heq : u.name = s.name := by simpa using he
        exact hnodup.1 (heq ▸ List.mem_map_of_mem _ hmem)
      simp [hz]
    · have hne : (a.name == s.name) = false := by
        simp only [beq_eq_false_iff_ne, ne_eq]
        intro he
        exact hnodup.1 (he ▸ List.mem_map_of_mem _ h)
      by_cases ha : a.dirty
      · rw [List.filter_cons_of_pos ha, List.countP_cons]
        simp [hne, ih hnodup.2 h]
      · rw [List.filter_cons_of_neg (by simpa using ha)]
        exact ih hnodup.2 h

theorem countP_name_filter_dirty_eq_zero (l : List Service)
    (hnodup : (l.map Service.name).Nodup) (t : Service)
    (ht : t ∈ l) (hnd : t.dirty = false) :
    (l.filter (fun u => u.dirty)).countP (fun u => u.name == t.name) = 0 := by
  rw [List.countP_eq_zero]
  intro u hu
  have hmem : u ∈ l := List.mem_of_mem_filter hu
  have hdirty : u.dirty = true := by
    have := List.of_mem_filter hu
    simpa using this
  intro he
  have heq : u.name = t.name := by simpa using he
  have : u = t := name_inj l hnodup hmem ht heq
  rw [this] at hdirty
  rw [hnd] at hdirty
  cases hdirty

/-! ## C1 -/

/-- C1 counterexample: two independent dirty units a and d; the queue
rejects the build task of a and would accept the build task of d. The
claim says the submitter records the failure against a, keeps
submitting the independent branch d, and reports failure after
processing the full graph; the code instead raises out of the loop, so
nothing at all is created — in particular no task for the independent
unit d — refuting the claim at this input. -/
theorem c1_counterexample :
    rejectA "d" = true ∧ svcD.dirty = true ∧ svcD.service_deps = [] ∧
    create_tasks schedDev [svcA0, svcD] id id rejectA = ([], false) := by
  decide

/-- C1 amended: on a per-task remote submission failure — at the build
createTask call site or at the push one — the code logs the error and
re-raises, so the invocation aborts at the failing call: every task
accepted before it stays submitted (for a push failure this includes
the failing unit's just-accepted build task), no later node is
attempted — neither dependents nor independent branches — and the
invocation is reported failed. -/
theorem c1_submission_failure_aborts (sched : Scheduler)
    (bids pids : String → String) (queue : String → Bool)
    (pre post : List Service) (s : Service)
    (hpre : (create_tasks_go sched (pre ++ s :: post) bids pids queue pre).2 = true)
    (hd : s.dirty = true) :
    (queue (bids s.name) = false →
      create_tasks sched (pre ++ s :: post) bids pids queue =
        ((create_tasks_go sched (pre ++ s :: post) bids pids queue pre).1, false)) ∧
    (queue (bids s.name) = true → should_push sched = true →
      queue (pids s.name) = false →
      create_tasks sched (pre ++ s :: post) bids pids queue =
        ((create_tasks_go sched (pre ++ s :: post) bids pids queue pre).1 ++
           [Created.mk (bids s.name) s.name TaskKind.build
             (build_task sched (pre ++ s :: post) bids s)], false)) := by
  constructor
  · intro hf
    unfold create_tasks
    rw [create_tasks_go_append, if_pos hpre]
    have hstep :
        create_tasks_go sched (pre ++ s :: post) bids pids queue (s :: post) =
          ([], false) := by
      simp [create_tasks_go, hd, hf]
    rw [hstep]
    simp
  · intro hb hp hpp
    unfold create_tasks
    rw [create_tasks_go_append, if_pos hpre]
    have hstep :
        create_tasks_go sched (pre ++ s :: post) bids pids queue (s :: post) =
          ([Created.mk (bids s.name) s.name TaskKind.build
             (build_task sched (pre ++ s :: post) bids s)], false) := by
      simp [create_tasks_go, hd, hb, hp, hpp]
    rw [hstep]

/-- C1 amended witness at the push-failure call site: the push task of
unit b is rejected after its build task was accepted, and the
independent unit d follows; the run keeps the accepted build task of b,
submits nothing for d, and fails. -/
theorem c1_submission_failure_aborts_witness :
    create_tasks schedMaster ([] ++ svcB :: [svcD]) id pushIds rejectPushB =
      ((create_tasks_go schedMaster ([] ++ svcB :: [svcD]) id pushIds rejectPushB []).1 ++
         [Created.mk (id svcB.name) svcB.name TaskKind.build
           (build_task schedMaster ([] ++ svcB :: [svcD]) id svcB)], false) :=
  (c1_submission_failure_aborts schedMaster id pushIds rejectPushB [] [svcD] svcB
      rfl rfl).2 (by decide) (by decide) (by decide)

/-! ## C2 -/

/-- C2 counterexample: the name-sorted catalog lists a before b while a
depends on b, and both are dirty. The code submits the build task of a
first, with the pre-allocated identifier of b in its dependency list,
before b has been submitted at all — so the acceptance of the
dependency does not precede the submission of the dependent, refuting
the claimed ordering. -/
theorem c2_counterexample :
    svcA.service_deps = ["b"] ∧
    (create_tasks schedDev [svcA, svcB] id id acceptAll).1.map (fun c => c.id) =
      ["a", "b"] ∧
    (create_tasks schedDev [svcA, svcB] id id acceptAll).1.map
        (fun c => c.task.dependencies) = [["b"], []] := by
  decide

/-- C2 amended: tasks are submitted in catalog iteration order — for
each dirty unit in order, its build task, then its push task when
publishing — with dependencies referenced through pre-allocated
identifiers; the order is independent of the dependency relation, so a
dependent earlier in name order is submitted before its dependency has
been accepted. -/
theorem c2_submission_order_is_catalog_order (sched : Scheduler)
    (svcs : List Service) (bids pids : String → String)
    (queue : String → Bool) (hq : ∀ i, queue i = true) :
    create_tasks sched svcs bids pids queue =
      (entriesAll sched svcs bids pids svcs, true) :=
  create_tasks_success sched svcs bids pids queue hq

/-- C2 amended witness at the two-unit catalog of the counterexample. -/
theorem c2_submission_order_is_catalog_order_witness :
    create_tasks schedDev [svcA, svcB] id id acceptAll =
      (entriesAll schedDev [svcA, svcB] id id [svcA, svcB], true) :=
  c2_submission_order_is_catalog_order schedDev [svcA, svcB] id id acceptAll
    (fun _ => rfl)

/-! ## C3 -/

/-- C3 counterexample: a push on the publish branch with the Docker Hub
secret absent. The claim says the invocation aborts with a
ConfigurationError before any task is submitted; the code performs no
such check and submits both the build task and the push task. -/
theorem c3_counterexample :
    schedNoSecret.docker_secret = none ∧ should_push schedNoSecret = true ∧
    (create_tasks schedNoSecret [svcB] id id acceptAll).1.length = 2 := by
  decide

/-- C3 amended: no credential validation is performed; when publish is
required and the credential reference is missing, the run proceeds and
submits tasks, and the push task carries the Python rendering None of
the missing reference in its environment and its secret scope. -/
theorem c3_no_credential_validation (sched : Scheduler) (svcs : List Service)
    (bids pids : String → String) (queue : String → Bool) (s : Service)
    (hq : ∀ i, queue i = true) (hsec : sched.docker_secret = none)
    (hpub : should_push sched = true) (hs : s ∈ svcs) (hd : s.dirty = true) :
    Created.mk (pids s.name) s.name TaskKind.push (push_task sched bids s) ∈
      (create_tasks sched svcs bids pids queue).1 ∧
    ("TASKCLUSTER_SECRET", "None") ∈ (push_task sched bids s).payload.env ∧
    "secrets:get:None" ∈ (push_task sched bids s).scopes := by
  refine ⟨?_, ?_, ?_⟩
  · rw [create_tasks_success sched svcs bids pids queue hq]
    exact push_entry_mem_entriesAll sched svcs bids pids hpub svcs s hs hd
  · simp [push_task, hsec, optStr]
  · simp [push_task, hsec, optStr]

/-- C3 amended witness at the secretless master push with one dirty
unit. -/
theorem c3_no_credential_validation_witness :
    Created.mk (id svcB.name) svcB.name TaskKind.push (push_task schedNoSecret id svcB) ∈
      (create_tasks schedNoSecret [svcB] id id acceptAll).1 ∧
    ("TASKCLUSTER_SECRET", "None") ∈ (push_task schedNoSecret id svcB).payload.env ∧
    "secrets:get:None" ∈ (push_task schedNoSecret id svcB).scopes :=
  c3_no_credential_validation schedNoSecret [svcB] id id acceptAll svcB
    (fun _ => rfl) rfl (by decide) (by decide) rfl

/-! ## C4 -/

theorem countP_push_entriesAll (sched : Scheduler) (svcs : List Service)
    (bids pids : String → String) (l : List Service) :
    (entriesAll sched svcs bids pids l).countP (fun c => c.kind == TaskKind.push) =
      if should_push sched then (l.filter (fun s => s.dirty)).length else 0 := by
  induction l with
  | nil => simp [entriesAll]
  | cons s rest ih =>
    by_cases hs : s.dirty
    · by_cases hp : should_push sched
      · simp [entriesAll, entry_of, hs, hp, List.countP_append, List.countP_cons,
          ih, List.filter_cons]
      · simp [entriesAll, entry_of, hs, hp, List.countP_append, List.countP_cons,
          ih, List.filter_cons]
    · simp [entriesAll, hs, ih, List.filter_cons]

/-- C4 counterexample: a release event whose branch equals the
configured publish branch. The claim says no Publish task is ever
created for a release event; the code only compares the branch, so a
push task is created. -/
theorem c4_counterexample :
    schedRelease.github_event.kind = EventKind.release ∧
    (create_tasks schedRelease [svcB] id id acceptAll).1.countP
        (fun c => c.kind == TaskKind.push) = 1 := by
  decide

/-- C4 amended: exactly one Publish task per dirty unit is created
precisely when the event branch equals the configured publish branch,
whatever the event kind — so a release on the publish branch also
publishes — and no Publish task is created when the branch differs; a
pull-request event has no branch and therefore never publishes. -/
theorem c4_publish_iff_branch_matches (sched : Scheduler) (svcs : List Service)
    (bids pids : String → String) (queue : String → Bool)
    (hq : ∀ i, queue i = true) :
    (create_tasks sched svcs bids pids queue).1.countP
        (fun c => c.kind == TaskKind.push) =
      if sched.github_event.branch == some sched.push_branch then
        (svcs.filter (fun s => s.dirty)).length
      else 0 := by
  rw [create_tasks_success sched svcs bids pids queue hq]
  exact countP_push_entriesAll sched svcs bids pids svcs

/-- C4 amended witness at the release event on the publish branch. -/
theorem c4_publish_iff_branch_matches_witness :
    (create_tasks schedRelease [svcB] id id acceptAll).1.countP
        (fun c => c.kind == TaskKind.push) =
      if schedRelease.github_event.branch == some schedRelease.push_branch then
        ([svcB].filter (fun s => s.dirty)).length
      else 0 :=
  c4_publish_iff_branch_matches schedRelease [svcB] id id acceptAll (fun _ => rfl)

/-! ## C5 -/

/-- C5: when publishing, every dirty unit yields exactly one build task
and exactly one push task; the push task of a unit depends exactly on
the pre-allocated identifier of that build task, carries the publish
credential reference in its environment, and declares no artifacts;
when not publishing, no push task exists. -/
theorem c5_publish_per_dirty_unit (sched : Scheduler) (svcs : List Service)
    (bids pids : String → String) (queue : String → Bool) (s : Service)
    (hq : ∀ i, queue i = true)
    (hnodup : (svcs.map Service.name).Nodup)
    (hs : s ∈ svcs) (hd : s.dirty = true) :
    (should_push sched = true →
      (create_tasks sched svcs bids pids queue).1.countP
          (fun c => c.service == s.name && c.kind == TaskKind.build) = 1 ∧
      (create_tasks sched svcs bids pids queue).1.countP
          (fun c => c.service == s.name && c.kind == TaskKind.push) = 1 ∧
      Created.mk (pids s.name) s.name TaskKind.push (push_task sched bids s) ∈
        (create_tasks sched svcs bids pids queue).1 ∧
      (push_task sched bids s).dependencies = [bids s.name] ∧
      (push_task sched bids s).payload.artifacts = [] ∧
      ("TASKCLUSTER_SECRET", optStr sched.docker_secret) ∈
        (push_task sched bids s).payload.env) ∧
    (should_push sched = false →
      (create_tasks sched svcs bids pids queue).1.countP
          (fun c => c.kind == TaskKind.push) = 0) := by
  have hrw : (create_tasks sched svcs bids pids queue).1 =
      entriesAll sched svcs bids pids svcs := by
    rw [create_tasks_success sched svcs bids pids queue hq]
  constructor
  · intro hp
    refine ⟨?_, ?_, ?_, rfl, rfl, ?_⟩
    · rw [hrw, countP_build_name_entriesAll]
      exact countP_name_filter_dirty_eq_one svcs hnodup s hs hd
    · rw [hrw, countP_push_name_entriesAll, if_pos hp]
      exact countP_name_filter_dirty_eq_one svcs hnodup s hs hd
    · rw [hrw]
      exact push_entry_mem_entriesAll sched svcs bids pids hp svcs s hs hd
    · simp [push_task]
  · intro hp
    rw [hrw, countP_push_entriesAll, if_neg (by simp [hp])]

/-- C5 witness at the master push with the single dirty unit b. -/
theorem c5_publish_per_dirty_unit_witness :
    (create_tasks schedMaster [svcB] id id acceptAll).1.countP
        (fun c => c.service == svcB.name && c.kind == TaskKind.build) = 1 ∧
    (create_tasks schedMaster [svcB] id id acceptAll).1.countP
        (fun c => c.service == svcB.name && c.kind == TaskKind.push) = 1 ∧
    Created.mk (id svcB.name) svcB.name TaskKind.push (push_task schedMaster id svcB) ∈
      (create_tasks schedMaster [svcB] id id acceptAll).1 ∧
    (push_task schedMaster id svcB).dependencies = [id svcB.name] ∧
    (push_task schedMaster id svcB).payload.artifacts = [] ∧
    ("TASKCLUSTER_SECRET", optStr schedMaster.docker_secret) ∈
      (push_task schedMaster id svcB).payload.env :=
  (c5_publish_per_dirty_unit schedMaster [svcB] id id acceptAll svcB
      (fun _ => rfl) (by decide) (by decide) rfl).1 (by decide)

/-! ## C6 -/

/-- C6: every dirty unit gets exactly one build task; its dependency
list is exactly the pre-allocated build identifiers of its declared
dependencies that are also dirty, its LOAD_DEPS flag is 1 exactly when
that dependency list is non-empty; a non-dirty unit contributes no task
at all and no created task lists its build identifier as a
dependency. -/
theorem c6_build_node_dependencies (sched : Scheduler) (svcs : List Service)
    (bids pids : String → String) (queue : String → Bool) (s t : Service)
    (hq : ∀ i, queue i = true)
    (hnodup : (svcs.map Service.name).Nodup)
    (hinj : Function.Injective bids)
    (hs : s ∈ svcs) (hd : s.dirty = true)
    (ht : t ∈ svcs) (hnd : t.dirty = false) :
    (create_tasks sched svcs bids pids queue).1.countP
        (fun c => c.service == s.name && c.kind == TaskKind.build) = 1 ∧
    Created.mk (bids s.name) s.name TaskKind.build (build_task sched svcs bids s) ∈
      (create_tasks sched svcs bids pids queue).1 ∧
    (build_task sched svcs bids s).dependencies =
      (s.service_deps.filter (dirtyIn svcs)).map bids ∧
    ("LOAD_DEPS",
        if (build_task sched svcs bids s).dependencies.isEmpty then "0" else "1") ∈
      (build_task sched svcs bids s).payload.env ∧
    (create_tasks sched svcs bids pids queue).1.countP
        (fun c => c.service == t.name) = 0 ∧
    (create_tasks sched svcs bids pids queue).1.all
        (fun c => !(c.task.dependencies.contains (bids t.name))) = true := by
  have hrw : (create_tasks sched svcs bids pids queue).1 =
      entriesAll sched svcs bids pids svcs := by
    rw [create_tasks_success sched svcs bids pids queue hq]
  refine ⟨?_, ?_, rfl, ?_, ?_, ?_⟩
  · rw [hrw, countP_build_name_entriesAll]
    exact countP_name_filter_dirty_eq_one svcs hnodup s hs hd
  · rw [hrw]
    exact build_entry_mem_entriesAll sched svcs bids pids svcs s hs hd
  · simp [build_task, dirty_dep_tasks]
  · rw [hrw, countP_service_entriesAll,
      countP_name_filter_dirty_eq_zero svcs hnodup t ht hnd]
    simp
  · rw [hrw, List.all_eq_true]
    intro c hc
    obtain ⟨s2, hs2, hd2, hshape⟩ := entriesAll_shape sched svcs bids pids svcs c hc
    have htdirty : dirtyIn svcs t.name = false := by
      rw [dirtyIn_eq_dirty svcs hnodup t ht, hnd]
    rcases hshape with h | ⟨hp, h⟩
    · subst h
      simp only [build_task, dirty_dep_tasks, Bool.not_eq_true',
        List.contains_eq_any_beq, List.any_eq_false]
      intro x hx
      rcases List.mem_map.mp hx with ⟨d, hdmem, hdx⟩
      rcases List.mem_filter.mp hdmem with ⟨_, hddirty⟩
      subst hdx
      intro hbeq
      have hde : bids t.name = bids d := by simpa using hbeq
      have : t.name = d := hinj hde
      rw [← this] at hddirty
      rw [htdirty] at hddirty
      cases hddirty
    · subst h
      simp only [push_task, Bool.not_eq_true', List.contains_eq_any_beq,
        List.any_eq_false]
      intro x hx
      have hxe : x = bids s2.name := by simpa using hx
      subst hxe
      intro hbeq
      have hde : bids t.name = bids s2.name := by simpa using hbeq
      have hne : t.name = s2.name := hinj hde
      have : t = s2 := name_inj svcs hnodup ht hs2 hne
      rw [← this] at hd2
      rw [hnd] at hd2
      cases hd2

/-- C6 witness: catalog with the dirty unit a (declared dependency b
absent from the catalog, hence no dirty dependency) and the clean unit
n. -/
theorem c6_build_node_dependencies_witness :
    (create_tasks schedDev [svcA, svcN] id id acceptAll).1.countP
        (fun c => c.service == svcA.name && c.kind == TaskKind.build) = 1 ∧
    Created.mk (id svcA.name) svcA.name TaskKind.build
        (build_task schedDev [svcA, svcN] id svcA) ∈
      (create_tasks schedDev [svcA, svcN] id id acceptAll).1 ∧
    (build_task schedDev [svcA, svcN] id svcA).dependencies =
      (svcA.service_deps.filter (dirtyIn [svcA, svcN])).map id ∧
    ("LOAD_DEPS",
        if (build_task schedDev [svcA, svcN] id svcA).dependencies.isEmpty then "0"
        else "1") ∈
      (build_task schedDev [svcA, svcN] id svcA).payload.env ∧
    (create_tasks schedDev [svcA, svcN] id id acceptAll).1.countP
        (fun c => c.service == svcN.name) = 0 ∧
    (create_tasks schedDev [svcA, svcN] id id acceptAll).1.all
        (fun c => !(c.task.dependencies.contains (id svcN.name))) = true :=
  c6_build_node_dependencies schedDev [svcA, svcN] id id acceptAll svcA svcN
    (fun _ => rfl) (by decide) Function.injective_id (by decide) rfl (by decide) rfl

/-! ## C7 -/

/-- C7: every created build task is stamped with creation time now,
deadline now plus DEADLINE, artifact expiry now plus ARTIFACTS_EXPIRE,
and carries an index route keyed by unit name and commit; for a
pull-request event it additionally carries the route keyed by unit name
and pull-request number. -/
theorem c7_build_task_timing_and_routes (sched : Scheduler) (svcs : List Service)
    (bids pids : String → String) (queue : String → Bool) (c : Created)
    (hq : ∀ i, queue i = true)
    (hpr : sched.github_event.kind = EventKind.pullRequest →
      sched.github_event.pull_request.isSome = true)
    (hc : c ∈ (create_tasks sched svcs bids pids queue).1)
    (hk : c.kind = TaskKind.build) :
    c.task.created = sched.now ∧
    c.task.deadline = sched.now + DEADLINE ∧
    c.task.payload.artifacts.all
        (fun a => a.expires == sched.now + ARTIFACTS_EXPIRE) = true ∧
    ("index.project.fuzzing.orion." ++ c.service ++ ".rev." ++
        sched.github_event.commit) ∈ c.task.routes ∧
    (sched.github_event.kind = EventKind.pullRequest →
      ("index.project.fuzzing.orion." ++ c.service ++ ".pull_request." ++
          toString (sched.github_event.pull_request.getD 0)) ∈ c.task.routes) := by
  rw [create_tasks_success sched svcs bids pids queue hq] at hc
  obtain ⟨s, _, _, hshape⟩ := entriesAll_shape sched svcs bids pids svcs c hc
  rcases hshape with h | ⟨_, h⟩
  · subst h
    refine ⟨rfl, rfl, by simp [build_task], ?_, ?_⟩
    · simp [build_task]
    · intro hkind
      have hsome := hpr hkind
      rcases Option.isSome_iff_exists.mp hsome with ⟨n, hn⟩
      simp [build_task, build_index, hn]
  · rw [h] at hk
    cases hk

/-- C7 witness at the pull-request event with the dirty unit b. -/
theorem c7_build_task_timing_and_routes_witness :
    (Created.mk (id svcB.name) svcB.name TaskKind.build
        (build_task schedPR [svcB] id svcB)).task.created = schedPR.now ∧
    (Created.mk (id svcB.name) svcB.name TaskKind.build
        (build_task schedPR [svcB] id svcB)).task.deadline =
      schedPR.now + DEADLINE ∧
    (Created.mk (id svcB.name) svcB.name TaskKind.build
        (build_task schedPR [svcB] id svcB)).task.payload.artifacts.all
        (fun a => a.expires == schedPR.now + ARTIFACTS_EXPIRE) = true ∧
    ("index.project.fuzzing.orion." ++
        (Created.mk (id svcB.name) svcB.name TaskKind.build
          (build_task schedPR [svcB] id svcB)).service ++ ".rev." ++
        schedPR.github_event.commit) ∈
      (Created.mk (id svcB.name) svcB.name TaskKind.build
        (build_task schedPR [svcB] id svcB)).task.routes ∧
    (schedPR.github_event.kind = EventKind.pullRequest →
      ("index.project.fuzzing.orion." ++
          (Created.mk (id svcB.name) svcB.name TaskKind.build
            (build_task schedPR [svcB] id svcB)).service ++ ".pull_request." ++
          toString (schedPR.github_event.pull_request.getD 0)) ∈
        (Created.mk (id svcB.name) svcB.name TaskKind.build
          (build_task schedPR [svcB] id svcB)).task.routes) :=
  c7_build_task_timing_and_routes schedPR [svcB] id id acceptAll
    (Created.mk (id svcB.name) svcB.name TaskKind.build
      (build_task schedPR [svcB] id svcB))
    (fun _ => rfl) (fun _ => rfl) (by decide) rfl

/-! ## C8 -/

/-- C8: when the force-rebuild marker occurs in the commit message,
every unit of the catalog is marked dirty and the changed-path list is
ignored entirely; otherwise the dirty flags are computed from the
changed-path list by the marking and propagation procedure. -/
theorem c8_force_rebuild_short_circuits (sched : Scheduler) (svcs : List Service) :
    (forceRebuildRequested sched.github_event.commit_message = true →
      (mark_services_for_rebuild sched svcs).all (fun s => s.dirty) = true ∧
      (mark_services_for_rebuild sched svcs).length = svcs.length ∧
      ∀ paths : List Path,
        mark_services_for_rebuild
            { sched with
                github_event :=
                  { sched.github_event with changed_paths := paths } } svcs =
          mark_services_for_rebuild sched svcs) ∧
    (forceRebuildRequested sched.github_event.commit_message = false →
      mark_services_for_rebuild sched svcs =
        mark_changed_dirty svcs sched.github_event.changed_paths) := by
  constructor
  · intro hf
    refine ⟨?_, ?_, ?_⟩
    · rw [List.all_eq_true]
      intro s hsm
      rw [mark_services_for_rebuild, if_pos hf] at hsm
      rcases List.mem_map.mp hsm with ⟨a, _, ha⟩
      rw [← ha]
    · rw [mark_services_for_rebuild, if_pos hf, List.length_map]
    · intro paths
      show mark_services_for_rebuild
          { sched with
              github_event :=
                { sched.github_event with changed_paths := paths } } svcs =
        mark_services_for_rebuild sched svcs
      rw [mark_services_for_rebuild, mark_services_for_rebuild]
      rw [if_pos hf, if_pos hf]
  · intro hf
    rw [mark_services_for_rebuild, if_neg (by simp [hf])]

/-- C8 witness at the force-rebuild commit message with a two-unit
catalog and two different changed-path lists. -/
theorem c8_force_rebuild_short_circuits_witness :
    (mark_services_for_rebuild schedForce [svcPA, svcPB]).all (fun s => s.dirty) = true ∧
    (mark_services_for_rebuild schedForce [svcPA, svcPB]).length =
      ([svcPA, svcPB] : List Service).length ∧
    mark_services_for_rebuild schedForceOther [svcPA, svcPB] =
      mark_services_for_rebuild schedForce [svcPA, svcPB] :=
  ⟨((c8_force_rebuild_short_circuits schedForce [svcPA, svcPB]).1 (by decide)).1,
   ((c8_force_rebuild_short_circuits schedForce [svcPA, svcPB]).1 (by decide)).2.1,
   ((c8_force_rebuild_short_circuits schedForce [svcPA, svcPB]).1 (by decide)).2.2
     [["y", "z"]]⟩

/-! ## C9 helper lemmas -/

theorem dirtyOr_eq_self_of_dirty (h : Service → Bool) (s : Service)
    (hd : s.dirty = true) : dirtyOr h s = s := by
  cases s
  simp_all [dirtyOr]

theorem dirtyOr_eq_self_of_not (h : Service → Bool) (s : Service)
    (hh : h s = false) : dirtyOr h s = s := by
  cases s
  simp_all [dirtyOr]

theorem dirtyOr_dirty (h : Service → Bool) (s : Service) :
    (dirtyOr h s).dirty = (s.dirty || h s) := rfl

theorem markOwners_map_eq (svcs : List Service) (changed : List Path) :
    markOwners svcs changed =
      svcs.map (dirtyOr (fun s => changed.any (ownsPath s))) := rfl

theorem passOnce_map_eq (l : List Service) :
    passOnce l =
      l.map (dirtyOr (fun s => l.any (fun u => u.dirty && s.service_deps.contains u.name))) := rfl

theorem passOnce_length (l : List Service) : (passOnce l).length = l.length := by
  rw [passOnce_map_eq, List.length_map]

theorem countP_dirty_map_le (h : Service → Bool) (l : List Service) :
    l.countP (fun s => s.dirty) ≤ (l.map (dirtyOr h)).countP (fun s => s.dirty) := by
  induction l with
  | nil => simp
  | cons a rest ih =>
    rw [List.map_cons, List.countP_cons, List.countP_cons]
    apply Nat.add_le_add ih
    by_cases ha : a.dirty
    · have h2 : (dirtyOr h a).dirty = true := by simp [dirtyOr_dirty, ha]
      simp [ha, h2]
    · by_cases hha : (dirtyOr h a).dirty
      · simp [ha, hha]
      · simp [ha, hha]

theorem countP_dirty_map_lt (h : Service → Bool) (l : List Service)
    (hne : l.map (dirtyOr h) ≠ l) :
    l.countP (fun s => s.dirty) < (l.map (dirtyOr h)).countP (fun s => s.dirty) := by
  induction l with
  | nil => simp at hne
  | cons a rest ih =>
    rw [List.map_cons] at hne
    rw [List.map_cons, List.countP_cons, List.countP_cons]
    by_cases hha : dirtyOr h a = a
    · rw [hha] at hne ⊢
      have hne2 : rest.map (dirtyOr h) ≠ rest := by
        intro hx
        exact hne (by rw [hx])
      have := ih hne2
      omega
    · have had : a.dirty = false := by
        by_contra hx
        exact hha (dirtyOr_eq_self_of_dirty h a (by simpa using hx))
      have hnew : (dirtyOr h a).dirty = true := by
        by_cases hh : h a
        · simp [dirtyOr_dirty, hh]
        · exact absurd (dirtyOr_eq_self_of_not h a (by simpa using hh)) hha
      have hle := countP_dirty_map_le h rest
      simp only [List.countP_map] at hle
      simp [had, hnew]
      omega

theorem propagate_fix : ∀ (n : Nat) (l : List Service),
    l.length < l.countP (fun s => s.dirty) + n →
    passOnce (propagate n l) = propagate n l := by
  intro n
  induction n with
  | zero =>
    intro l hl
    exfalso
    have hcl : l.countP (fun s => s.dirty) ≤ l.length := List.countP_le_length _
    omega
  | succ n ih =>
    intro l hl
    unfold propagate
    by_cases hf : passOnce l = l
    · rw [if_pos hf]
      exact hf
    · rw [if_neg hf]
      apply ih
      have h1 : (passOnce l).length = l.length := passOnce_length l
      have h2 : l.countP (fun s => s.dirty) <
          (passOnce l).countP (fun s => s.dirty) := by
        rw [passOnce_map_eq]
        apply countP_dirty_map_lt
        rw [← passOnce_map_eq]
        exact hf
      omega

theorem propagate_of_fix (n : Nat) (l : List Service)
    (hf : passOnce l = l) : propagate n l = l := by
  cases n with
  | zero => rfl
  | succ n =>
    unfold propagate
    rw [if_pos hf]

theorem mark_changed_dirty_fix (svcs : List Service) (changed : List Path) :
    passOnce (mark_changed_dirty svcs changed) = mark_changed_dirty svcs changed := by
  rw [mark_changed_dirty]
  apply propagate_fix
  have h1 : (markOwners svcs changed).length = svcs.length := by
    rw [markOwners_map_eq, List.length_map]
  omega

theorem map_eq_self_mem {α : Type} (f : α → α) (l : List α)
    (h : l.map f = l) : ∀ x ∈ l, f x = x := by
  induction l with
  | nil => intro x hx; cases hx
  | cons a rest ih =>
    rw [List.map_cons] at h
    injection h with h1 h2
    intro x hx
    rcases List.mem_cons.mp hx with hx1 | hx1
    · rw [hx1]
      exact h1
    · exact ih h2 x hx1

theorem fix_closure (r : List Service) (hfix : passOnce r = r)
    (u s : Service) (hum : u ∈ r) (hsm : s ∈ r)
    (hu : u.dirty = true) (hd : u.name ∈ s.service_deps) : s.dirty = true := by
  have hpt := map_eq_self_mem
    (dirtyOr (fun t => r.any (fun v => v.dirty && t.service_deps.contains v.name)))
    r (by rw [← passOnce_map_eq]; exact hfix) s hsm
  have hdirty :
      (dirtyOr (fun t => r.any (fun v => v.dirty && t.service_deps.contains v.name)) s).dirty =
        s.dirty := by
    rw [hpt]
  rw [dirtyOr_dirty] at hdirty
  have hany : r.any (fun v => v.dirty && s.service_deps.contains v.name) = true := by
    rw [List.any_eq_true]
    exact ⟨u, hum, by simp [hu, List.contains, hd]⟩
  rw [hany, Bool.or_true] at hdirty
  exact hdirty.symm

theorem transDependent_target_mem {r : List Service} {u s : Service}
    (h : TransDependent r u s) : s ∈ r := by
  cases h with
  | direct _ hs _ => exact hs
  | tail _ hs _ => exact hs

theorem dirty_closed_of_fix (r : List Service) (hfix : passOnce r = r)
    {u s : Service} (hdep : TransDependent r u s) (hu : u.dirty = true) :
    s.dirty = true := by
  induction hdep with
  | direct hum hsm hd => exact fix_closure r hfix _ _ hum hsm hu hd
  | tail hdep2 hsm hd ih =>
    exact fix_closure r hfix _ _ (transDependent_target_mem hdep2) hsm ih hd

theorem ownersDirty_markOwners (svcs : List Service) (changed : List Path) :
    OwnersDirty changed (markOwners svcs changed) := by
  intro s hsm hany
  rw [markOwners_map_eq] at hsm
  rcases List.mem_map.mp hsm with ⟨a, _, ha⟩
  rw [← ha] at hany ⊢
  have hany2 : changed.any (ownsPath a) = true := hany
  rw [dirtyOr_dirty, hany2, Bool.or_true]

theorem ownersDirty_passOnce (changed : List Path) (l : List Service)
    (h : OwnersDirty changed l) : OwnersDirty changed (passOnce l) := by
  intro s hsm hany
  rw [passOnce_map_eq] at hsm
  rcases List.mem_map.mp hsm with ⟨a, ham, ha⟩
  rw [← ha] at hany ⊢
  have hany2 : changed.any (ownsPath a) = true := hany
  have had : a.dirty = true := h a ham hany2
  rw [dirtyOr_dirty, had, Bool.true_or]

theorem ownersDirty_propagate (changed : List Path) :
    ∀ (n : Nat) (l : List Service),
      OwnersDirty changed l → OwnersDirty changed (propagate n l)
  | 0, l, h => h
  | n + 1, l, h => by
    unfold propagate
    by_cases hf : passOnce l = l
    · rw [if_pos hf]
      exact h
    · rw [if_neg hf]
      exact ownersDirty_propagate changed n (passOnce l)
        (ownersDirty_passOnce changed l h)

theorem ownersDirty_mark (svcs : List Service) (changed : List Path) :
    OwnersDirty changed (mark_changed_dirty svcs changed) := by
  rw [mark_changed_dirty]
  exact ownersDirty_propagate changed _ _ (ownersDirty_markOwners svcs changed)

theorem map_dirtyOr_eq_self (h : Service → Bool) (l : List Service)
    (hl : ∀ s ∈ l, s.dirty = true ∨ h s = false) : l.map (dirtyOr h) = l := by
  induction l with
  | nil => rfl
  | cons a rest ih =>
    rw [List.map_cons]
    have hae : dirtyOr h a = a := by
      rcases hl a (List.mem_cons_self _ _) with ha | ha
      · exact dirtyOr_eq_self_of_dirty h a ha
      · exact dirtyOr_eq_self_of_not h a ha
    rw [hae, ih (fun s hs => hl s (List.mem_cons_of_mem _ hs))]

theorem markOwners_eq_self (r : List Service) (changed : List Path)
    (hod : OwnersDirty changed r) : markOwners r changed = r := by
  rw [markOwners_map_eq]
  apply map_dirtyOr_eq_self
  intro s hs
  by_cases hany : changed.any (ownsPath s) = true
  · exact Or.inl (hod s hs hany)
  · exact Or.inr (by simpa using hany)

theorem mark_changed_dirty_idem (svcs : List Service) (changed : List Path) :
    mark_changed_dirty (mark_changed_dirty svcs changed) changed =
      mark_changed_dirty svcs changed := by
  conv_lhs => rw [mark_changed_dirty]
  rw [markOwners_eq_self _ _ (ownersDirty_mark svcs changed)]
  exact propagate_of_fix _ _ (mark_changed_dirty_fix svcs changed)

theorem map_name_map_dirtyOr (h : Service → Bool) (l : List Service) :
    (l.map (dirtyOr h)).map Service.name = l.map Service.name := by
  rw [List.map_map]
  rfl

theorem map_name_passOnce (l : List Service) :
    (passOnce l).map Service.name = l.map Service.name := by
  rw [passOnce_map_eq, map_name_map_dirtyOr]

theorem map_name_propagate : ∀ (n : Nat) (l : List Service),
    (propagate n l).map Service.name = l.map Service.name
  | 0, _ => rfl
  | n + 1, l => by
    unfold propagate
    by_cases hf : passOnce l = l
    · rw [if_pos hf]
    · rw [if_neg hf, map_name_propagate n (passOnce l), map_name_passOnce]

theorem map_name_mark (svcs : List Service) (changed : List Path) :
    (mark_changed_dirty svcs changed).map Service.name = svcs.map Service.name := by
  rw [mark_changed_dirty, map_name_propagate, markOwners_map_eq, map_name_map_dirtyOr]

/-! ## C9 -/

/-- C9: after marking and propagation, every unit of the result whose
build context contains a changed path is dirty, every transitive
dependent of a dirty unit of the result is dirty, the catalog keeps
exactly the same units in the same order (witnessed by the name list),
and re-running the propagator on the already-propagated catalog changes
nothing. -/
theorem c9_dirtiness_propagation (svcs : List Service) (changed : List Path)
    (t u s : Service)
    (ht : t ∈ mark_changed_dirty svcs changed)
    (hown : changed.any (ownsPath t) = true)
    (hdep : TransDependent (mark_changed_dirty svcs changed) u s)
    (hu : u.dirty = true) :
    t.dirty = true ∧ s.dirty = true ∧
    (mark_changed_dirty svcs changed).map Service.name = svcs.map Service.name ∧
    mark_changed_dirty (mark_changed_dirty svcs changed) changed =
      mark_changed_dirty svcs changed :=
  ⟨ownersDirty_mark svcs changed t ht hown,
   dirty_closed_of_fix _ (mark_changed_dirty_fix svcs changed) hdep hu,
   map_name_mark svcs changed,
   mark_changed_dirty_idem svcs changed⟩

/-- C9 witness at the chain catalog A, B depends on A, C depends on B,
with a changed path in the context of A. -/
theorem c9_dirtiness_propagation_witness :
    svcPAd.dirty = true ∧ svcPBd.dirty = true ∧
    (mark_changed_dirty [svcPA, svcPB, svcPC] changedA).map Service.name =
      [svcPA, svcPB, svcPC].map Service.name ∧
    mark_changed_dirty (mark_changed_dirty [svcPA, svcPB, svcPC] changedA) changedA =
      mark_changed_dirty [svcPA, svcPB, svcPC] changedA :=
  c9_dirtiness_propagation [svcPA, svcPB, svcPC] changedA svcPAd svcPAd svcPBd
    (by decide) (by decide)
    (TransDependent.direct (by decide) (by decide) (by decide)) rfl

/-! ## C10 -/

/-- C10: the decision entrypoint never reads the parsed dry-run flag:
two invocations whose arguments differ only in that flag submit the
same tasks and return the same exit status. -/
theorem c10_dry_run_has_no_effect (a : Args) (b1 b2 : Bool)
    (catalog : List Service) (bids pids : String → String)
    (queue : String → Bool) :
    Scheduler.main { a with dry_run := b1 } catalog bids pids queue =
      Scheduler.main { a with dry_run := b2 } catalog bids pids queue := rfl

end OrionDecision
